import Mathlib

/-!
Shallow embedding of src/photo_api.py (a Google Photos album downloader).

Python strings are modelled as lists of characters, JSON-like response
objects as structures with Option-valued fields (a missing key is none),
the filesystem as an association list from paths to byte contents, and the
network as explicit oracles (functions from requests to responses, or a
sequence of responses consumed in order).  Side effects (time.sleep,
download calls, HTTP page requests, printed error messages) are recorded
in explicit event traces.  Loops that the source writes as unbounded
while-loops are embedded with an explicit fuel parameter: a result of
none means the loop is still running after that many iterations.
-/

namespace PhotoApi

/-- A Python string, as a list of characters. -/
abbrev Str := List Char

/-- Raw byte content of a downloaded file. -/
abbrev Bytes := List Nat

/-- The local filesystem: an association list from file paths to contents.
A later (more recent) entry shadows an earlier one under lookup. -/
abbrev FS := List (Str × Bytes)

/-- Python truthiness of an optional string: None and the empty string are
falsy, any non-empty string is truthy. -/
def truthyStr : Option Str → Bool
  | none => false
  | some t => !t.isEmpty

/-- strStarts needle s: needle is a prefix of s (character by character). -/
def strStarts : Str → Str → Bool
  | [], _ => true
  | _ :: _, [] => false
  | a :: as, b :: bs => a = b && strStarts as bs

/-- Python substring containment, the operator in: strContains hay needle
is true when needle occurs contiguously inside hay. -/
def strContains (hay needle : Str) : Bool :=
  match hay with
  | [] => needle.isEmpty
  | _ :: t => strStarts needle hay || strContains t needle

/-- Python str.split with a one-character separator: splits at every
occurrence of the separator; the result is never empty, and splitting the
empty string yields one empty chunk. -/
def pySplit (c : Char) : Str → List Str
  | [] => [[]]
  | x :: xs =>
    if x = c then [] :: pySplit c xs
    else
      match pySplit c xs with
      | [] => [[x]]
      | p :: ps => (x :: p) :: ps

/-- Python str.lower, character by character. -/
def pyLower (s : Str) : Str := s.map Char.toLower

/-- os.path.join for a directory and a file name. -/
def osJoin (a b : Str) : Str := a ++ ('/' :: b)

/-- Source constant DOWNLOAD_DIR = 'vision_photos'. -/
def DOWNLOAD_DIR : Str := "vision_photos".toList

/-! ### get_credentials (src/photo_api.py lines 21-38) -/

/-- The only Python exception main's download loop can raise in this model:
reading a local variable that was never assigned. -/
inductive PyErr where
  | nameError
  deriving DecidableEq

/-- OAuth credentials, with the fields get_credentials inspects:
valid, expired, and the (possibly missing or empty) refresh token. -/
structure Creds where
  valid : Bool
  expired : Bool
  refresh_token : Option Str
  deriving DecidableEq

/-- Result of get_credentials: the credentials returned, and the
credentials written to the token file (none when no write happened). -/
structure GCResult where
  creds : Creds
  tokenWritten : Option Creds
  deriving DecidableEq

/-- Embedding of get_credentials.  stored is the credentials parsed from
the token file (none when the file does not exist); refresh is the oracle
for creds.refresh(Request()), which either raises (error, with the
exception message) or returns the refreshed credentials; flowCreds is the
result of the interactive InstalledAppFlow.run_local_server flow.
An uncaught exception from refresh is an error result. -/
def get_credentials (stored : Option Creds) (refresh : Creds → Except Str Creds)
    (flowCreds : Creds) : Except Str GCResult :=
  match stored with
  | none => .ok { creds := flowCreds, tokenWritten := some flowCreds }
  | some c =>
    if c.valid then .ok { creds := c, tokenWritten := none }
    else
      if c.expired ∧ truthyStr c.refresh_token then
        match refresh c with
        | .error e => .error e
        | .ok c2 => .ok { creds := c2, tokenWritten := some c2 }
      else .ok { creds := flowCreds, tokenWritten := some flowCreds }

/-! ### Pagination (list_albums, lines 40-71; get_media_items_in_album, lines 80-118) -/

/-- One parsed JSON response of a paginated endpoint: HTTP status, the
optional results array (albums / mediaItems; none when the key is
missing), and the optional nextPageToken. -/
structure Page (α : Type) where
  status : Nat
  items : Option (List α)
  token : Option Str
  deriving DecidableEq

/-- An HTTP page request as the source builds it: url, the albumId field
of the search body (none for the albums endpoint), pageSize, and the
optional pageToken parameter. -/
structure PageReq where
  url : Str
  albumId : Option Str
  pageSize : Nat
  pageToken : Option Str
  deriving DecidableEq

/-- Events of a pagination loop: a page request issued, the printed
error message for a non-200 status, and the printed found-count. -/
inductive PEv where
  | req : PageReq → PEv
  | errPrint : Nat → PEv
  | found : Nat → PEv
  deriving DecidableEq

/-- The pageToken parameter actually sent: the source only attaches the
token when it is truthy (if nextPageToken:), so None and the empty string
both yield a request without a pageToken. -/
def tokParam : Option Str → Option Str
  | none => none
  | some t => if t.isEmpty then none else some t

/-- The shared while-loop body of list_albums and
get_media_items_in_album, which are line-for-line identical except for
the request they build (mk).  pages is the sequence of API responses, in
the order the loop receives them; fuel bounds the number of iterations
(none = still running after that many); n is the index of the next
response; tok the current value of the nextPageToken variable; acc the
accumulated items; evs the event trace. -/
def fetchPages (mk : Option Str → PageReq) (pages : Nat → Page α) :
    Nat → Nat → Option Str → List α → List PEv → Option (List α × List PEv)
  | 0, _, _, _, _ => none
  | fuel + 1, n, tok, acc, evs =>
    if (pages n).status ≠ 200 then
      some (acc, evs ++ [PEv.req (mk (tokParam tok)), PEv.errPrint (pages n).status])
    else
      match (pages n).items with
      | none => some (acc, evs ++ [PEv.req (mk (tokParam tok))])
      | some its =>
        match (pages n).token with
        | none => some (acc ++ its, evs ++ [PEv.req (mk (tokParam tok)), PEv.found its.length])
        | some t =>
          fetchPages mk pages fuel (n + 1) (some t) (acc ++ its)
            (evs ++ [PEv.req (mk (tokParam tok)), PEv.found its.length])

/-- An album object; only the title field is inspected by the source. -/
structure Album where
  title : Option Str
  deriving DecidableEq

/-- The GET request list_albums builds: the albums url, pageSize 50. -/
def albumsReq (tok : Option Str) : PageReq :=
  { url := "https://photoslibrary.googleapis.com/v1/albums".toList,
    albumId := none, pageSize := 50, pageToken := tok }

/-- Embedding of list_albums: page through the albums endpoint with
pageSize 50, starting with no token, empty accumulator and empty trace. -/
def list_albums (pages : Nat → Page Album) (fuel : Nat) :
    Option (List Album × List PEv) :=
  fetchPages albumsReq pages fuel 0 none [] []

/-- A media item, with the three fields main inspects. -/
structure MediaItem where
  baseUrl : Option Str
  mimeType : Option Str
  filename : Option Str
  deriving DecidableEq

/-- The POST request get_media_items_in_album builds: the search url,
the album id in the body, pageSize 100. -/
def searchReq (album_id : Str) (tok : Option Str) : PageReq :=
  { url := "https://photoslibrary.googleapis.com/v1/mediaItems:search".toList,
    albumId := some album_id, pageSize := 100, pageToken := tok }

/-- Embedding of get_media_items_in_album: identical loop to list_albums
with the search request and pageSize 100. -/
def get_media_items_in_album (pages : Nat → Page MediaItem) (album_id : Str)
    (fuel : Nat) : Option (List MediaItem × List PEv) :=
  fetchPages (searchReq album_id) pages fuel 0 none [] []

/-- A page response on which the loop keeps going: status 200, a present
results array, and a present nextPageToken. -/
def goodCont (p : Page α) : Prop :=
  p.status = 200 ∧ p.items.isSome ∧ p.token.isSome

/-- A page response on which the loop stops: non-200 status, or a missing
results array, or a missing nextPageToken. -/
def badPage (p : Page α) : Prop :=
  p.status ≠ 200 ∨ p.items = none ∨ p.token = none

instance {α : Type} [DecidableEq α] (p : Page α) : Decidable (goodCont p) := by
  unfold goodCont; infer_instance

instance {α : Type} [DecidableEq α] (p : Page α) : Decidable (badPage p) := by
  unfold badPage; infer_instance

/-- Concatenation, in page order, of the results arrays of the first k
responses (a missing array contributes nothing). -/
def concatUpTo (pages : Nat → Page α) (k : Nat) : List α :=
  ((List.range k).map fun i => ((pages i).items).getD []).flatten

/-- The value of the nextPageToken variable when the i-th response is
requested: none for the first request, afterwards the token of the
previous response. -/
def tokVar (pages : Nat → Page α) : Nat → Option Str
  | 0 => none
  | j + 1 => (pages j).token

/-- The event trace produced by the first k iterations when each of the
first k responses lets the loop continue: one request (carrying the
truthiness-filtered token) and one found-print per page. -/
def contEvs (mk : Option Str → PageReq) (pages : Nat → Page α) (k : Nat) : List PEv :=
  ((List.range k).map fun i =>
    [PEv.req (mk (tokParam (tokVar pages i))), PEv.found (((pages i).items).getD []).length]).flatten

/-- The found-print events contributed by the exit page: one when its
items array is present, none otherwise. -/
def foundEvs {α : Type} : Option (List α) → List PEv
  | some its => [PEv.found its.length]
  | none => []

/-- The pageToken parameters of the requests in a trace, in order. -/
def reqToks (evs : List PEv) : List (Option Str) :=
  evs.filterMap fun e =>
    match e with
    | PEv.req r => some r.pageToken
    | _ => none

/-! ### find_vision_album (lines 73-78) -/

/-- Embedding of find_vision_album: first album whose title (missing
title read as the empty string), lowercased, equals vision. -/
def find_vision_album : List Album → Option Album
  | [] => none
  | a :: rest =>
    if pyLower ((a.title).getD []) = "vision".toList then some a
    else find_vision_album rest

/-- The matching predicate of find_vision_album, at the claim level. -/
def matchesVision (a : Album) : Prop :=
  pyLower ((a.title).getD []) = "vision".toList

instance (a : Album) : Decidable (matchesVision a) := by
  unfold matchesVision; infer_instance

/-! ### download_media_item (lines 120-142) -/

/-- A requests.get response: HTTP status and body bytes. -/
structure HttpResp where
  status : Nat
  content : Bytes
  deriving DecidableEq

/-- The network oracle for requests.get: either raises (error, with the
exception message) or returns a response. -/
abbrev Http := Str → Except Str HttpResp

/-- Result of download_media_item: the returned boolean, the filesystem
after the call, the urls actually requested, and whether the except
branch printed an error message. -/
structure DlResult where
  ok : Bool
  fs : FS
  reqs : List Str
  errLogged : Bool
  deriving DecidableEq

/-- Embedding of download_media_item.  The try-body either returns or
raises; every raise (a raising requests.get, or raise_for_status on a
4xx/5xx status) is caught by the except clause, which logs an error and
returns False.  When the target path already exists the function returns
True at once; otherwise a successful download writes the body to the
path. -/
def download_media_item (http : Http) (fs : FS) (url filename download_dir : Str) :
    DlResult :=
  let filepath := osJoin download_dir filename
  if (fs.lookup filepath).isSome then
    { ok := true, fs := fs, reqs := [], errLogged := false }
  else
    match http url with
    | .error _ => { ok := false, fs := fs, reqs := [url], errLogged := true }
    | .ok r =>
      if 400 ≤ r.status ∧ r.status < 600 then
        { ok := false, fs := fs, reqs := [url], errLogged := true }
      else
        { ok := true, fs := (filepath, r.content) :: fs, reqs := [url], errLogged := false }

/-! ### The download loop of main (lines 174-208) -/

/-- Events of main's download loop: a time.sleep(1) call at a loop index,
or a download_media_item call (loop index, url, filename, result). -/
inductive MEv where
  | sleep : Nat → MEv
  | dl : Nat → Str → Str → Bool → MEv
  deriving DecidableEq

/-- The loop state of main's download loop: the extension and
download_url local variables (none = never assigned; reading none raises
NameError), the successful counter, the filesystem, and the event
trace. -/
structure MState where
  ext : Option Str
  dlu : Option Str
  successful : Nat
  fs : FS
  evs : List MEv
  deriving DecidableEq

/-- extension = mime_type.split('/')[-1], with 'jpeg' rewritten to
'jpg' (lines 189-191). -/
def code_extension (mime : Str) : Str :=
  let e := (pySplit '/' mime).getLastD []
  if e = "jpeg".toList then "jpg".toList else e

/-- Lines 198-202: when the original filename contains a dot, drop the
part after the last dot ('.'.join(split('.')[:-1])) and append the new
extension; otherwise append the extension to the whole name. -/
def mk_filename (orig ext : Str) : Str :=
  if strContains orig ['.'] then
    List.intercalate ['.'] ((pySplit '.' orig).dropLast) ++ ('.' :: ext)
  else orig ++ ('.' :: ext)

/-- The sleep events emitted at loop index i: one iff i > 0 and i is a
multiple of 10 (line 178). -/
def sleepEvs (i : Nat) : List MEv :=
  if 0 < i ∧ i % 10 = 0 then [MEv.sleep i] else []

/-- One iteration of main's download loop at index i.  Mirrors lines
177-208: sleep bookkeeping, skip on a falsy baseUrl, assignment of
extension and download_url only inside the image branch, filename
construction (raising NameError when extension was never assigned), and
the download call (raising NameError when download_url was never
assigned). -/
def mainStep (http : Http) (i : Nat) (item : MediaItem) (s : MState) :
    Except PyErr MState :=
  let s1 : MState := { s with evs := s.evs ++ sleepEvs i }
  match item.baseUrl with
  | none => .ok s1
  | some u =>
    if u.isEmpty then .ok s1
    else
      let mime := (item.mimeType).getD []
      let ext := if strContains mime "image".toList then some (code_extension mime) else s1.ext
      let dlu := if strContains mime "image".toList then some (u ++ "=d".toList) else s1.dlu
      let fname? : Except PyErr Str :=
        match item.filename with
        | some orig =>
          match ext with
          | none => .error .nameError
          | some e => .ok (mk_filename orig e)
        | none =>
          match ext with
          | none => .error .nameError
          | some e => .ok ("photo_".toList ++ (Nat.repr (i + 1)).toList ++ ('.' :: e))
      match fname? with
      | .error e => .error e
      | .ok fname =>
        match dlu with
        | none => .error .nameError
        | some d =>
          let r := download_media_item http s1.fs d fname DOWNLOAD_DIR
          .ok { ext := ext, dlu := dlu,
                successful := s1.successful + (if r.ok then 1 else 0),
                fs := r.fs,
                evs := s1.evs ++ [MEv.dl i d fname r.ok] }

/-- The enumerate loop of main over the remaining media items, starting
at loop index i: an unhandled exception from an iteration aborts the
whole loop. -/
def mainLoopAux (http : Http) : List MediaItem → Nat → MState → Except PyErr MState
  | [], _, s => .ok s
  | it :: rest, i, s =>
    match mainStep http i it s with
    | .error e => .error e
    | .ok s2 => mainLoopAux http rest (i + 1) s2

/-- Main's whole download loop (lines 174-208) over the fetched media
items, from the initial state: both local variables unassigned,
successful = 0, the given filesystem, empty trace. -/
def mainDownloadLoop (http : Http) (items : List MediaItem) (fs : FS) :
    Except PyErr MState :=
  mainLoopAux http items 0 { ext := none, dlu := none, successful := 0, fs := fs, evs := [] }

/-- The loop indices at which a sleep event occurs, in trace order. -/
def sleepIdxs (evs : List MEv) : List Nat :=
  evs.filterMap fun e =>
    match e with
    | MEv.sleep i => some i
    | _ => none

/-- For each sleep event in the trace, the number of successful download
events that precede it. -/
def dlCountBeforeAux : List MEv → Nat → List Nat
  | [], _ => []
  | MEv.sleep _ :: rest, c => c :: dlCountBeforeAux rest c
  | MEv.dl _ _ _ true :: rest, c => dlCountBeforeAux rest (c + 1)
  | MEv.dl _ _ _ false :: rest, c => dlCountBeforeAux rest c

/-- dlCountBefore evs: the successful-download counts at each sleep. -/
def dlCountBefore (evs : List MEv) : List Nat := dlCountBeforeAux evs 0

/-- The event trace of a finished run (empty for an aborted run). -/
def runEvs (r : Except PyErr MState) : List MEv :=
  match r with
  | .ok s => s.evs
  | .error _ => []

/-- A media item is an image item when its mimeType (missing read as the
empty string) contains the substring image. -/
def imageItem (it : MediaItem) : Prop :=
  strContains ((it.mimeType).getD []) "image".toList = true

instance (it : MediaItem) : Decidable (imageItem it) := by
  unfold imageItem; infer_instance

/-- Claim-level: the name with its final dot-separated extension removed
(everything before the last dot). -/
def stripLastExt : Str → Str
  | [] => []
  | c :: cs =>
    if '.' ∈ cs then c :: stripLastExt cs
    else if c = '.' then [] else []

/-- A successful download event (the only events counted into the
successful total). -/
def isOkDl : MEv → Bool
  | MEv.dl _ _ _ b => b
  | _ => false

/-- An HTTP oracle that always succeeds with status 200. -/
def c2Http : Http := fun _ => .ok { status := 200, content := [1] }

/-- An HTTP oracle whose requests.get always raises. -/
def c4HttpFail : Http := fun _ => .error "boom".toList

/-- A well-formed image media item with a distinct url and filename. -/
def c2Item (n : Nat) : MediaItem :=
  { baseUrl := some ('u' :: (Nat.repr n).toList),
    mimeType := some "image/png".toList,
    filename := some ('a' :: (Nat.repr n).toList ++ ".png".toList) }

/-- Eleven media items: the first has no baseUrl (so it is skipped by
the loop but still counted by the enumerate index), the other ten are
downloadable image items. -/
def c2Items : List MediaItem :=
  { baseUrl := none, mimeType := some "image/png".toList, filename := some "a0.png".toList } ::
    (List.range 10).map (fun n => c2Item (n + 1))

/-- The initial state of main's download loop over an empty
filesystem. -/
def initState : MState := { ext := none, dlu := none, successful := 0, fs := [], evs := [] }

/-- A media item with no baseUrl, which the loop skips. -/
def skipItem : MediaItem := { baseUrl := none, mimeType := none, filename := none }

/-- A loop state in which a previous image item has already assigned the
extension and download_url variables. -/
def staleState : MState :=
  { ext := some "jpg".toList, dlu := some "ux=d".toList, successful := 0, fs := [], evs := [] }

/-- A non-image media item with a usable baseUrl and a filename. -/
def videoItem : MediaItem :=
  { baseUrl := some "v".toList, mimeType := some "video/mp4".toList,
    filename := some "v.mp4".toList }

/-- An image media item with no filename key. -/
def noNameItem : MediaItem :=
  { baseUrl := some "w".toList, mimeType := some "image/jpeg".toList, filename := none }

/-- A response sequence whose second page has a 500 status. -/
def c3Pages : Nat → Page Album := fun n =>
  if n = 0 then
    { status := 200, items := some [{ title := some "a".toList }], token := some "t".toList }
  else { status := 500, items := none, token := none }

/-- A response sequence (media items) whose second page has a 500
status. -/
def c3Media : Nat → Page MediaItem := fun n =>
  if n = 0 then { status := 200, items := some [videoItem], token := some "t".toList }
  else { status := 500, items := none, token := none }

/-- A response sequence whose first page carries the empty string as
nextPageToken and whose second page exits the loop (no token). -/
def c6Pages : Nat → Page Album := fun n =>
  if n = 0 then
    { status := 200, items := some [{ title := some "a".toList }], token := some [] }
  else { status := 200, items := some [{ title := some "b".toList }], token := none }

/-- The same empty-token shape over media items. -/
def c6Media : Nat → Page MediaItem := fun n =>
  if n = 0 then { status := 200, items := some [videoItem], token := some [] }
  else { status := 200, items := some [noNameItem], token := none }

/-- A response sequence that is immediately bad (non-200). -/
def c7BadPages : Nat → Page Album := fun _ => { status := 500, items := none, token := none }

/-- A response sequence on which the loop never stops: every page has
status 200, an items array, and a nextPageToken. -/
def c7GoodPages : Nat → Page Album := fun _ =>
  { status := 200, items := some [], token := some ['t'] }

/-- An immediately bad media-items response sequence. -/
def c7BadMedia : Nat → Page MediaItem := fun _ => { status := 500, items := none, token := none }

/-- A never-stopping media-items response sequence. -/
def c7GoodMedia : Nat → Page MediaItem := fun _ =>
  { status := 200, items := some [], token := some ['t'] }

/-- Concrete stored credentials: present, invalid, expired, with a
non-empty refresh token, so the source attempts the refresh call. -/
def c1BadCreds : Creds := { valid := false, expired := true, refresh_token := some ['r'] }

/-- A refresh oracle whose refresh call raises. -/
def c1RefreshFail : Creds → Except Str Creds := fun _ => .error "refresh failed".toList

/-- Concrete credentials the interactive flow would return. -/
def c1FlowCreds : Creds := { valid := true, expired := false, refresh_token := none }

/-! ## Theorems -/

/-- Claim C1, counterexample: with stored credentials that are present,
invalid, expired and carrying a refresh token, a refresh call that raises
propagates out of get_credentials (the result is the refresh exception).
The claim says the function would instead fall back to the interactive
flow and write the flow credentials to the token file; the second
conjunct shows that is not the result. -/
theorem c1_counterexample :
    get_credentials (some c1BadCreds) c1RefreshFail c1FlowCreds = .error "refresh failed".toList
    ∧ get_credentials (some c1BadCreds) c1RefreshFail c1FlowCreds ≠
        .ok { creds := c1FlowCreds, tokenWritten := some c1FlowCreds } := by
  refine ⟨rfl, fun h => ?_⟩
  rw [show get_credentials (some c1BadCreds) c1RefreshFail c1FlowCreds =
    .error "refresh failed".toList from rfl] at h
  exact Except.noConfusion h

/-- Claim C1, amended: when no stored credentials exist, or when stored
credentials are invalid but no refresh is attempted (not expired, or no
truthy refresh token), get_credentials falls back to the interactive
login flow and writes the resulting credentials to the token file; but
when a refresh is attempted and the refresh call raises, the exception
propagates and nothing is written. -/
theorem c1_amended :
    (∀ rf flow, get_credentials none rf flow =
      .ok { creds := flow, tokenWritten := some flow })
    ∧ (∀ c rf flow, c.valid = false →
        ¬(c.expired = true ∧ truthyStr c.refresh_token = true) →
        get_credentials (some c) rf flow =
          .ok { creds := flow, tokenWritten := some flow })
    ∧ (∀ c rf flow e, c.valid = false → c.expired = true →
        truthyStr c.refresh_token = true → rf c = .error e →
        get_credentials (some c) rf flow = .error e) := by
  refine ⟨fun rf flow => rfl, fun c rf flow h1 h2 => ?_, fun c rf flow e h1 h2 h3 h4 => ?_⟩
  · simp only [get_credentials, h1]
    rw [if_neg (by simp), if_neg (by simpa using h2)]
  · simp only [get_credentials, h1]
    rw [if_neg (by simp), if_pos (by simp [h2, h3]), h4]

/-- Witness for c1_amended at concrete inputs. -/
theorem c1_amended_witness :
    get_credentials (some { valid := false, expired := false, refresh_token := none })
        c1RefreshFail c1FlowCreds = .ok { creds := c1FlowCreds, tokenWritten := some c1FlowCreds }
    ∧ get_credentials (some c1BadCreds) c1RefreshFail c1FlowCreds =
        .error "refresh failed".toList :=
  ⟨c1_amended.2.1 _ c1RefreshFail c1FlowCreds rfl (by decide),
   c1_amended.2.2 c1BadCreds c1RefreshFail c1FlowCreds _ rfl rfl (by decide) rfl⟩

/-- Claim C5: when the target filepath (download_dir joined with the
filename) already exists, download_media_item returns True, issues no
HTTP request, logs nothing, and leaves the filesystem exactly as it
was. -/
theorem c5_skip_existing (http : Http) (fs : FS) (url filename download_dir : Str)
    (h : (fs.lookup (osJoin download_dir filename)).isSome = true) :
    download_media_item http fs url filename download_dir =
      { ok := true, fs := fs, reqs := [], errLogged := false } := by
  simp only [download_media_item, h, if_true]

/-- Witness for c5_skip_existing: an existing file is skipped even
though the HTTP oracle would fail. -/
theorem c5_witness :
    download_media_item (fun _ => .error "boom".toList)
        [(osJoin DOWNLOAD_DIR "a.jpg".toList, [7])] "u".toList "a.jpg".toList DOWNLOAD_DIR =
      { ok := true, fs := [(osJoin DOWNLOAD_DIR "a.jpg".toList, [7])],
        reqs := [], errLogged := false } :=
  c5_skip_existing _ _ _ _ _ (by decide)

/-- Claim C9: find_vision_album returns the first album of the list
whose title, lowercased, is vision (matching is case-insensitive via
pyLower in matchesVision); it returns none when no album matches; and an
album with no title key never matches (its title reads as the empty
string). -/
theorem c9_find_vision :
    (∀ pre a post, (∀ x ∈ pre, ¬ matchesVision x) → matchesVision a →
      find_vision_album (pre ++ a :: post) = some a)
    ∧ (∀ albums, (∀ x ∈ albums, ¬ matchesVision x) → find_vision_album albums = none)
    ∧ (∀ a, a.title = none → ¬ matchesVision a) := by
  refine ⟨fun pre a post hpre ha => ?_, fun albums h => ?_, fun a h => ?_⟩
  · induction pre with
    | nil =>
      rw [matchesVision] at ha
      simp only [List.nil_append, find_vision_album]
      rw [if_pos ha]
    | cons x xs ih =>
      have hx : ¬ matchesVision x := hpre x (by simp)
      rw [matchesVision] at hx
      simp only [List.cons_append, find_vision_album]
      rw [if_neg hx]
      exact ih (fun y hy => hpre y (by simp [hy]))
  · induction albums with
    | nil => rfl
    | cons x xs ih =>
      have hx : ¬ matchesVision x := h x (by simp)
      rw [matchesVision] at hx
      simp only [find_vision_album]
      rw [if_neg hx]
      exact ih (fun y hy => h y (by simp [hy]))
  · intro hm
    rw [matchesVision, h] at hm
    exact absurd hm (by decide)

/-- Witness for c9_find_vision: the mixed-case title ViSiOn matches and
the earlier non-matching album is passed over; a titleless album does
not match. -/
theorem c9_witness :
    find_vision_album [{ title := some "x".toList }, { title := some "ViSiOn".toList },
        { title := some "vision".toList }] = some { title := some "ViSiOn".toList }
    ∧ find_vision_album [{ title := none }] = none
    ∧ ¬ matchesVision { title := none } :=
  ⟨c9_find_vision.1 [{ title := some "x".toList }] { title := some "ViSiOn".toList }
      [{ title := some "vision".toList }] (by decide) (by decide),
   c9_find_vision.2.1 [{ title := none }] (by decide),
   c9_find_vision.2.2 { title := none } rfl⟩

/-- One loop iteration adds a sleep event exactly when the loop index is
a positive multiple of ten. -/
theorem mainStep_sleepIdxs (http : Http) (i : Nat) (item : MediaItem) (s s2 : MState)
    (h : mainStep http i item s = .ok s2) :
    sleepIdxs s2.evs = sleepIdxs s.evs ++ (if 0 < i ∧ i % 10 = 0 then [i] else []) := by
  have hsl : ∀ j, sleepIdxs (sleepEvs j) = if 0 < j ∧ j % 10 = 0 then [j] else [] := by
    intro j; rw [sleepEvs, sleepIdxs]; split <;> simp
  have happ : ∀ l1 l2, sleepIdxs (l1 ++ l2) = sleepIdxs l1 ++ sleepIdxs l2 := by
    intro l1 l2; simp [sleepIdxs]
  have hdl : ∀ a b c d, sleepIdxs [MEv.dl a b c d] = [] := by intro a b c d; rfl
  simp only [mainStep] at h
  repeat' split at h
  all_goals cases h
  all_goals simp only [happ, hsl, hdl, List.append_nil, List.append_assoc]

/-- One loop iteration increments the successful counter by the number
of successful download events it emits (0 or 1); a failed or skipped
download contributes nothing. -/
theorem mainStep_successful (http : Http) (i : Nat) (item : MediaItem) (s s2 : MState)
    (h : mainStep http i item s = .ok s2) :
    s2.successful = s.successful + ((s2.evs.drop s.evs.length).countP isOkDl) := by
  have hsl : ∀ j, (sleepEvs j).countP isOkDl = 0 := by
    intro j; rw [sleepEvs]; split <;> rfl
  simp only [mainStep] at h
  repeat' split at h
  all_goals cases h
  all_goals simp only [List.append_assoc, List.drop_left, List.countP_append,
    List.countP_cons, List.countP_nil, hsl]
  all_goals simp only [isOkDl, Nat.add_zero, Nat.zero_add]
  all_goals split <;> simp_all

/-- Claim C4: a raising requests.get, or a 4xx/5xx status rejected by
raise_for_status, is caught by download_media_item, which logs an error
and returns False with the filesystem untouched (conjuncts 1 and 2); an
iteration of main's loop that returns normally lets the loop proceed to
the next media item (conjunct 3); and the successful total counts
exactly the successful download events, so a failed download is simply
not counted (conjunct 4). -/
theorem c4_download_error_contained :
    (∀ http fs url filename dir e, (fs.lookup (osJoin dir filename)) = none →
        http url = .error e →
        download_media_item http fs url filename dir =
          { ok := false, fs := fs, reqs := [url], errLogged := true })
    ∧ (∀ http fs url filename dir r, (fs.lookup (osJoin dir filename)) = none →
        http url = .ok r → 400 ≤ r.status → r.status < 600 →
        download_media_item http fs url filename dir =
          { ok := false, fs := fs, reqs := [url], errLogged := true })
    ∧ (∀ http item rest i s s2, mainStep http i item s = .ok s2 →
        mainLoopAux http (item :: rest) i s = mainLoopAux http rest (i + 1) s2)
    ∧ (∀ http i item s s2, mainStep http i item s = .ok s2 →
        s2.successful = s.successful + ((s2.evs.drop s.evs.length).countP isOkDl)) := by
  refine ⟨fun http fs url filename dir e h1 h2 => ?_,
    fun http fs url filename dir r h1 h2 h3 h4 => ?_,
    fun http item rest i s s2 h => ?_,
    fun http i item s s2 h => mainStep_successful http i item s s2 h⟩
  · simp [download_media_item, h1, h2]
  · simp [download_media_item, h1, h2, h3, h4]
  · simp only [mainLoopAux, h]

/-- Witness for c4_download_error_contained at concrete inputs: a
raising requests.get and a 404 status both yield False with no
filesystem change; a normally returning iteration continues the loop;
and a failing download leaves successful at zero. -/
theorem c4_witness :
    download_media_item c4HttpFail [] "u".toList "f.jpg".toList DOWNLOAD_DIR =
      { ok := false, fs := [], reqs := ["u".toList], errLogged := true }
    ∧ download_media_item (fun _ => .ok { status := 404, content := [] }) []
        "u".toList "f.jpg".toList DOWNLOAD_DIR =
      { ok := false, fs := [], reqs := ["u".toList], errLogged := true }
    ∧ mainLoopAux c4HttpFail [skipItem, c2Item 1] 0 initState =
        mainLoopAux c4HttpFail [c2Item 1] 1 { initState with evs := initState.evs ++ sleepEvs 0 }
    ∧ (match mainStep c4HttpFail 0 (c2Item 1) initState with
        | .ok s2 => s2.successful =
            initState.successful + ((s2.evs.drop initState.evs.length).countP isOkDl)
        | .error _ => False) := by
  refine ⟨c4_download_error_contained.1 _ _ _ _ _ "boom".toList (by decide) rfl,
    c4_download_error_contained.2.1 _ _ _ _ _ _ (by decide) rfl (by decide) (by decide),
    c4_download_error_contained.2.2.1 _ _ _ _ _ _ rfl, ?_⟩
  obtain ⟨s2, h⟩ : ∃ s2, mainStep c4HttpFail 0 (c2Item 1) initState = .ok s2 := ⟨_, rfl⟩
  rw [h]
  exact c4_download_error_contained.2.2.2 _ _ _ _ _ h

/-- The enumerate loop propagates mainStep_sleepIdxs: a finished run
from loop index i over a list of items sleeps exactly at the positive
multiples of ten among the indices i, i+1, ..., i+len-1. -/
theorem mainLoopAux_sleepIdxs (http : Http) :
    ∀ (items : List MediaItem) (i : Nat) (s st : MState),
    mainLoopAux http items i s = .ok st →
    sleepIdxs st.evs = sleepIdxs s.evs ++
      (List.range' i items.length).filter (fun j => decide (0 < j) && decide (j % 10 = 0)) := by
  intro items
  induction items with
  | nil => intro i s st h; cases h; simp
  | cons it rest ih =>
    intro i s st h
    simp only [mainLoopAux] at h
    cases hm : mainStep http i it s with
    | error e => rw [hm] at h; cases h
    | ok s2 =>
      rw [hm] at h
      have h1 := mainStep_sleepIdxs http i it s s2 hm
      have h2 := ih (i + 1) s2 st h
      rw [h2, h1, List.append_assoc]
      have hr : List.range' i (it :: rest).length = i :: List.range' (i + 1) rest.length := rfl
      rw [hr, List.filter_cons]
      by_cases hi : 0 < i ∧ i % 10 = 0
      · rw [if_pos hi, if_pos (by simp [hi.1, hi.2])]
        simp
      · rw [if_neg hi, if_neg ?_]
        · simp
        · simp only [Bool.and_eq_true, decide_eq_true_eq]
          exact fun hc => hi ⟨hc.1, hc.2⟩

/-- Claim C2, counterexample: over eleven media items whose first item
lacks a baseUrl (so it is skipped but still enumerated), the single
time.sleep(1) call happens when only 9 files have been downloaded, not
at a group boundary of ten downloaded files. -/
theorem c2_counterexample :
    dlCountBefore (runEvs (mainDownloadLoop c2Http c2Items [])) = [9] ∧ 9 % 10 ≠ 0 := by
  refine ⟨by decide, by decide⟩

/-- Claim C2, amended: time.sleep(1) is called exactly before processing
the items at positive loop indices that are multiples of ten, where the
index counts all enumerated media items (including items skipped for a
missing baseUrl and failed downloads), not files downloaded. -/
theorem c2_amended (http : Http) (items : List MediaItem) (fs : FS) (st : MState)
    (h : mainDownloadLoop http items fs = .ok st) :
    sleepIdxs st.evs =
      (List.range items.length).filter (fun j => decide (0 < j) && decide (j % 10 = 0)) := by
  have h1 := mainLoopAux_sleepIdxs http items 0 _ st h
  rw [h1, List.range_eq_range']
  simp [sleepIdxs]

/-- Witness for c2_amended: a completed concrete run of the loop. -/
theorem c2_amended_witness :
    sleepIdxs (runEvs (mainDownloadLoop c2Http c2Items [])) =
      (List.range c2Items.length).filter (fun j => decide (0 < j) && decide (j % 10 = 0)) := by
  obtain ⟨st, hst⟩ : ∃ st, mainDownloadLoop c2Http c2Items [] = .ok st := ⟨_, rfl⟩
  rw [hst]
  exact c2_amended c2Http c2Items [] st hst

/-- Containment of a one-character needle is membership. -/
theorem strContains_singleton {s : Str} {c : Char} :
    strContains s [c] = true ↔ c ∈ s := by
  induction s with
  | nil => simp [strContains]
  | cons x t ih =>
    simp [strContains, strStarts, ih]

/-- pySplit never returns the empty list of chunks. -/
theorem pySplit_ne_nil (c : Char) (s : Str) : pySplit c s ≠ [] := by
  induction s with
  | nil => simp [pySplit]
  | cons x xs ih =>
    by_cases hx : x = c
    · simp [pySplit, hx]
    · simp only [pySplit, if_neg hx]
      cases h : pySplit c xs <;> simp

/-- Splitting a string free of the separator yields that one chunk. -/
theorem pySplit_no_sep {c : Char} {s : Str} (h : c ∉ s) : pySplit c s = [s] := by
  induction s with
  | nil => rfl
  | cons x xs ih =>
    have hx : ¬ x = c := fun he => h (by simp [he])
    have h2 : c ∉ xs := fun hc => h (by simp [hc])
    simp [pySplit, hx, ih h2]

/-- Splitting past a separator-free front chunk peels it off. -/
theorem pySplit_sep_append {c : Char} {t : Str} (h : c ∉ t) (rest : Str) :
    pySplit c (t ++ c :: rest) = t :: pySplit c rest := by
  induction t with
  | nil => simp [pySplit]
  | cons a t2 ih =>
    have ha : ¬ a = c := fun he => h (by simp [he])
    have h2 : c ∉ t2 := fun hc => h (by simp [hc])
    simp [pySplit, ha, ih h2]

/-- A string containing the separator splits into at least two chunks. -/
theorem pySplit_mem {c : Char} {s : Str} (h : c ∈ s) :
    ∃ p ps, pySplit c s = p :: ps ∧ ps ≠ [] := by
  induction s with
  | nil => cases h
  | cons x xs ih =>
    by_cases hx : x = c
    · subst hx
      exact ⟨[], pySplit x xs, by simp [pySplit], pySplit_ne_nil x xs⟩
    · have hxs : c ∈ xs := by
        rcases List.mem_cons.mp h with h1 | h1
        · exact absurd h1.symm hx
        · exact h1
      obtain ⟨p, ps, hsp, hne⟩ := ih hxs
      exact ⟨x :: p, ps, by simp [pySplit, hx, hsp], hne⟩

/-- intercalate over at least two chunks expands a step. -/
theorem intercalate_cons_cons (sep a b : Str) (l : List Str) :
    List.intercalate sep (a :: b :: l) = a ++ sep ++ List.intercalate sep (b :: l) := by
  simp [List.intercalate, List.intersperse]

/-- Pulling a head character out of the first chunk of an intercalate. -/
theorem intercalate_head (sep : Str) (c : Char) (p : Str) (rest : List Str) :
    List.intercalate sep ((c :: p) :: rest) = c :: List.intercalate sep (p :: rest) := by
  cases rest with
  | nil => simp [List.intercalate]
  | cons r rs => rw [intercalate_cons_cons, intercalate_cons_cons]; simp

/-- The source computation '.'.join(name.split('.')[:-1]) equals the
claim-level stripLastExt (everything before the last dot), whenever the
name contains a dot. -/
theorem mk_filename_strip {s : Str} (h : '.' ∈ s) :
    List.intercalate ['.'] ((pySplit '.' s).dropLast) = stripLastExt s := by
  induction s with
  | nil => cases h
  | cons c cs ih =>
    by_cases hc : c = '.'
    · subst hc
      by_cases hcs : '.' ∈ cs
      · obtain ⟨p, ps, hsp, hne⟩ := pySplit_mem hcs
        obtain ⟨q, qs, rfl⟩ : ∃ q qs, ps = q :: qs := by
          cases ps with
          | nil => exact absurd rfl hne
          | cons q qs => exact ⟨q, qs, rfl⟩
        have hs1 : pySplit '.' ('.' :: cs) = [] :: p :: q :: qs := by
          simp [pySplit, hsp]
        rw [hs1]
        have hd : ([] :: p :: q :: qs).dropLast = [] :: (p :: q :: qs).dropLast := rfl
        have hd2 : (p :: q :: qs).dropLast = p :: (q :: qs).dropLast := rfl
        rw [hd, hd2, intercalate_cons_cons, ← hd2, ← hsp, ih hcs]
        rw [stripLastExt, if_pos hcs]
        simp
      · have hs1 : pySplit '.' ('.' :: cs) = [[], cs] := by
          simp [pySplit, pySplit_no_sep hcs]
        rw [hs1]
        rw [stripLastExt, if_neg hcs, if_pos rfl]
        rfl
    · have hcs : '.' ∈ cs := by
        rcases List.mem_cons.mp h with h1 | h1
        · exact absurd h1.symm hc
        · exact h1
      obtain ⟨p, ps, hsp, hne⟩ := pySplit_mem hcs
      obtain ⟨q, qs, rfl⟩ : ∃ q qs, ps = q :: qs := by
        cases ps with
        | nil => exact absurd rfl hne
        | cons q qs => exact ⟨q, qs, rfl⟩
      have hs1 : pySplit '.' (c :: cs) = (c :: p) :: q :: qs := by
        simp [pySplit, hc, hsp]
      rw [hs1]
      have hd : ((c :: p) :: q :: qs).dropLast = (c :: p) :: (q :: qs).dropLast := rfl
      have hd2 : (p :: q :: qs).dropLast = p :: (q :: qs).dropLast := rfl
      rw [hd, intercalate_head, ← hd2, ← hsp, ih hcs]
      rw [stripLastExt, if_pos hcs]

/-- stripLastExt really is the part before the last dot: the original
name is stripLastExt followed by a dot and a dot-free tail. -/
theorem stripLastExt_spec {s : Str} (h : '.' ∈ s) :
    ∃ t, '.' ∉ t ∧ s = stripLastExt s ++ '.' :: t := by
  induction s with
  | nil => cases h
  | cons c cs ih =>
    by_cases hcs : '.' ∈ cs
    · obtain ⟨t, ht, heq⟩ := ih hcs
      refine ⟨t, ht, ?_⟩
      rw [stripLastExt, if_pos hcs]
      simpa using heq
    · have hc : c = '.' := by
        rcases List.mem_cons.mp h with h1 | h1
        · exact h1.symm
        · exact absurd h1 hcs
      refine ⟨cs, hcs, ?_⟩
      rw [stripLastExt, if_neg hcs, if_pos hc, hc]
      rfl

/-- On a mimeType of the shape type/subtype, the source extension
computation yields the subtype, with jpeg mapped to jpg. -/
theorem code_extension_subtype {ty sub : Str} (hty : '/' ∉ ty) (hsub : '/' ∉ sub) :
    code_extension (ty ++ '/' :: sub) =
      if sub = "jpeg".toList then "jpg".toList else sub := by
  rw [code_extension]
  rw [pySplit_sep_append hty, pySplit_no_sep hsub]
  rfl

/-- The source filename computation equals the claim-level description:
replace the final dot-separated extension when the name has a dot,
append the extension otherwise. -/
theorem mk_filename_eq (orig e : Str) :
    mk_filename orig e =
      (if strContains orig ['.'] = true then stripLastExt orig else orig) ++ '.' :: e := by
  rw [mk_filename]
  by_cases h : strContains orig ['.'] = true
  · rw [if_pos h, if_pos h, mk_filename_strip (strContains_singleton.mp h)]
  · rw [if_neg h, if_neg h]

/-- The image-with-filename branch of one loop iteration, fully
evaluated: extension and download_url are freshly assigned from the
mimeType and baseUrl, and the download is called with the rebuilt
filename. -/
theorem mainStep_image_file (http : Http) (i : Nat) (item : MediaItem) (s : MState)
    (u orig : Str) (hb : item.baseUrl = some u) (hu : u.isEmpty = false)
    (himg : strContains ((item.mimeType).getD []) "image".toList = true)
    (hf : item.filename = some orig) :
    mainStep http i item s = .ok
      { ext := some (code_extension ((item.mimeType).getD [])),
        dlu := some (u ++ "=d".toList),
        successful := s.successful + (if (download_media_item http s.fs (u ++ "=d".toList)
          (mk_filename orig (code_extension ((item.mimeType).getD []))) DOWNLOAD_DIR).ok
          then 1 else 0),
        fs := (download_media_item http s.fs (u ++ "=d".toList)
          (mk_filename orig (code_extension ((item.mimeType).getD []))) DOWNLOAD_DIR).fs,
        evs := s.evs ++ sleepEvs i ++ [MEv.dl i (u ++ "=d".toList)
          (mk_filename orig (code_extension ((item.mimeType).getD [])))
          (download_media_item http s.fs (u ++ "=d".toList)
            (mk_filename orig (code_extension ((item.mimeType).getD []))) DOWNLOAD_DIR).ok] } := by
  have himg2 : strContains ((item.mimeType).getD []) ['i', 'm', 'a', 'g', 'e'] = true := himg
  simp [mainStep, hb, hu, himg2, hf, List.append_assoc]

/-- The image-without-filename branch of one loop iteration: the file is
saved under the generated photo_(i+1) name. -/
theorem mainStep_image_nofile (http : Http) (i : Nat) (item : MediaItem) (s : MState)
    (u : Str) (hb : item.baseUrl = some u) (hu : u.isEmpty = false)
    (himg : strContains ((item.mimeType).getD []) "image".toList = true)
    (hf : item.filename = none) :
    mainStep http i item s = .ok
      { ext := some (code_extension ((item.mimeType).getD [])),
        dlu := some (u ++ "=d".toList),
        successful := s.successful + (if (download_media_item http s.fs (u ++ "=d".toList)
          ("photo_".toList ++ (Nat.repr (i + 1)).toList ++
            ('.' :: code_extension ((item.mimeType).getD []))) DOWNLOAD_DIR).ok
          then 1 else 0),
        fs := (download_media_item http s.fs (u ++ "=d".toList)
          ("photo_".toList ++ (Nat.repr (i + 1)).toList ++
            ('.' :: code_extension ((item.mimeType).getD []))) DOWNLOAD_DIR).fs,
        evs := s.evs ++ sleepEvs i ++ [MEv.dl i (u ++ "=d".toList)
          ("photo_".toList ++ (Nat.repr (i + 1)).toList ++
            ('.' :: code_extension ((item.mimeType).getD [])))
          (download_media_item http s.fs (u ++ "=d".toList)
            ("photo_".toList ++ (Nat.repr (i + 1)).toList ++
              ('.' :: code_extension ((item.mimeType).getD []))) DOWNLOAD_DIR).ok] } := by
  have himg2 : strContains ((item.mimeType).getD []) ['i', 'm', 'a', 'g', 'e'] = true := himg
  simp [mainStep, hb, hu, himg2, hf, List.append_assoc]

/-- The stale branch: a non-image item with a usable baseUrl reuses the
previously assigned extension and download_url unchanged. -/
theorem mainStep_stale_file (http : Http) (i : Nat) (item : MediaItem) (s : MState)
    (u orig e d : Str) (hb : item.baseUrl = some u) (hu : u.isEmpty = false)
    (hm : strContains ((item.mimeType).getD []) "image".toList = false)
    (hf : item.filename = some orig) (he : s.ext = some e) (hd : s.dlu = some d) :
    mainStep http i item s = .ok
      { ext := some e, dlu := some d,
        successful := s.successful +
          (if (download_media_item http s.fs d (mk_filename orig e) DOWNLOAD_DIR).ok
            then 1 else 0),
        fs := (download_media_item http s.fs d (mk_filename orig e) DOWNLOAD_DIR).fs,
        evs := s.evs ++ sleepEvs i ++ [MEv.dl i d (mk_filename orig e)
          (download_media_item http s.fs d (mk_filename orig e) DOWNLOAD_DIR).ok] } := by
  have hm2 : strContains ((item.mimeType).getD []) ['i', 'm', 'a', 'g', 'e'] = false := hm
  simp [mainStep, hb, hu, hm2, hf, he, hd, List.append_assoc]

/-- A non-image item with a usable baseUrl raises NameError when the
extension variable was never assigned. -/
theorem mainStep_noExt_error (http : Http) (i : Nat) (item : MediaItem) (s : MState)
    (u : Str) (hb : item.baseUrl = some u) (hu : u.isEmpty = false)
    (hm : strContains ((item.mimeType).getD []) "image".toList = false)
    (he : s.ext = none) :
    mainStep http i item s = .error .nameError := by
  have hm2 : strContains ((item.mimeType).getD []) ['i', 'm', 'a', 'g', 'e'] = false := hm
  cases hf : item.filename <;> simp [mainStep, hb, hu, hm2, hf, he]

/-- A non-image item either raises NameError or leaves the extension
variable unassigned. -/
theorem mainStep_nonimage_none (http : Http) (i : Nat) (item : MediaItem) (s : MState)
    (hm : strContains ((item.mimeType).getD []) "image".toList = false)
    (he : s.ext = none) :
    mainStep http i item s = .error .nameError ∨
      ∃ s2, mainStep http i item s = .ok s2 ∧ s2.ext = none := by
  cases hb : item.baseUrl with
  | none =>
    exact Or.inr ⟨{ s with evs := s.evs ++ sleepEvs i }, by simp [mainStep, hb], he⟩
  | some u =>
    cases hu : u.isEmpty with
    | true =>
      exact Or.inr ⟨{ s with evs := s.evs ++ sleepEvs i }, by simp [mainStep, hb, hu], he⟩
    | false => exact Or.inl (mainStep_noExt_error http i item s u hb hu hm he)

/-- If no item before a non-image item with a usable baseUrl is an image
item, the loop aborts with NameError when it reaches that item (or on an
earlier non-image item that itself has a usable baseUrl). -/
theorem mainLoopAux_noExt_error (http : Http) (it : MediaItem) (post : List MediaItem)
    (u : Str) (hb : it.baseUrl = some u) (hu : u.isEmpty = false) (hm : ¬ imageItem it) :
    ∀ (pre : List MediaItem) (i : Nat) (s : MState), s.ext = none →
      (∀ x ∈ pre, ¬ imageItem x) →
      mainLoopAux http (pre ++ it :: post) i s = .error .nameError := by
  have hm2 : strContains ((it.mimeType).getD []) "image".toList = false := by
    rw [imageItem] at hm
    exact Bool.not_eq_true _ ▸ hm
  intro pre
  induction pre with
  | nil =>
    intro i s he _
    have hstep := mainStep_noExt_error http i it s u hb hu hm2 he
    simp [mainLoopAux, hstep]
  | cons x xs ih =>
    intro i s he hpre
    have hx : strContains ((x.mimeType).getD []) "image".toList = false := by
      have := hpre x (by simp)
      rw [imageItem] at this
      exact Bool.not_eq_true _ ▸ this
    rcases mainStep_nonimage_none http i x s hx he with herr | ⟨s2, hok, he2⟩
    · simp [mainLoopAux, herr]
    · simp only [List.cons_append, mainLoopAux, hok]
      exact ih (i + 1) s2 he2 (fun y hy => hpre y (by simp [hy]))

/-- Claim C8: in main's loop the extension and download url are assigned
only in the image branch.  Conjunct 1: a non-image item with a non-empty
baseUrl is downloaded with the download_url and extension left over in
the loop state (from the most recent image item).  Conjunct 2: when no
earlier item in the list is an image item, processing a non-image item
that has a non-empty baseUrl aborts the whole loop with an unhandled
NameError. -/
theorem c8_stale_extension :
    (∀ http i item s u orig e d, item.baseUrl = some u → u.isEmpty = false →
        ¬ imageItem item → item.filename = some orig →
        s.ext = some e → s.dlu = some d →
        ∃ b n fs2, mainStep http i item s = .ok
          { ext := some e, dlu := some d, successful := n, fs := fs2,
            evs := s.evs ++ sleepEvs i ++ [MEv.dl i d (mk_filename orig e) b] })
    ∧ (∀ http fs pre it post u, (∀ x ∈ pre, ¬ imageItem x) →
        it.baseUrl = some u → u.isEmpty = false → ¬ imageItem it →
        mainDownloadLoop http (pre ++ it :: post) fs = .error .nameError) := by
  constructor
  · intro http i item s u orig e d hb hu hm hf he hd
    have hm2 : strContains ((item.mimeType).getD []) "image".toList = false := by
      rw [imageItem] at hm
      exact Bool.not_eq_true _ ▸ hm
    exact ⟨_, _, _, mainStep_stale_file http i item s u orig e d hb hu hm2 hf he hd⟩
  · intro http fs pre it post u hpre hb hu hm
    exact mainLoopAux_noExt_error http it post u hb hu hm pre 0 _ rfl hpre

/-- Witness for c8_stale_extension: a video item after an image item is
downloaded with the stale jpg extension and stale url; a list of two
video items (no image item anywhere) aborts with NameError. -/
theorem c8_witness :
    (∃ b n fs2, mainStep c2Http 3 videoItem staleState = .ok
      { ext := some "jpg".toList, dlu := some "ux=d".toList, successful := n, fs := fs2,
        evs := staleState.evs ++ sleepEvs 3 ++
          [MEv.dl 3 "ux=d".toList (mk_filename "v.mp4".toList "jpg".toList) b] })
    ∧ mainDownloadLoop c2Http ([videoItem] ++ videoItem :: []) [] = .error .nameError :=
  ⟨c8_stale_extension.1 c2Http 3 videoItem staleState _ _ _ _ rfl (by decide) (by decide)
      rfl rfl rfl,
   c8_stale_extension.2 c2Http [] [videoItem] videoItem [] _ (by decide) rfl (by decide)
      (by decide)⟩

/-- Claim C10: for an image media item with a mimeType of the shape
type/subtype whose baseUrl is usable, main passes to download_media_item
the original filename with its final dot-separated extension replaced by
the mime subtype (jpeg mapped to jpg; for a dot-free name the extension
is appended), and, for an item without a filename key, the generated
name photo_(i+1).(extension), where i is the zero-based enumerate
index. -/
theorem c10_filename :
    (∀ http i item s u ty sub orig,
        item.baseUrl = some u → u.isEmpty = false →
        item.mimeType = some (ty ++ '/' :: sub) → '/' ∉ ty → '/' ∉ sub →
        imageItem item → item.filename = some orig →
        ∃ b n fs2, mainStep http i item s = .ok
          { ext := some (if sub = "jpeg".toList then "jpg".toList else sub),
            dlu := some (u ++ "=d".toList),
            successful := n, fs := fs2,
            evs := s.evs ++ sleepEvs i ++
              [MEv.dl i (u ++ "=d".toList)
                ((if strContains orig ['.'] = true then stripLastExt orig else orig) ++
                  '.' :: (if sub = "jpeg".toList then "jpg".toList else sub)) b] })
    ∧ (∀ http i item s u ty sub,
        item.baseUrl = some u → u.isEmpty = false →
        item.mimeType = some (ty ++ '/' :: sub) → '/' ∉ ty → '/' ∉ sub →
        imageItem item → item.filename = none →
        ∃ b n fs2, mainStep http i item s = .ok
          { ext := some (if sub = "jpeg".toList then "jpg".toList else sub),
            dlu := some (u ++ "=d".toList),
            successful := n, fs := fs2,
            evs := s.evs ++ sleepEvs i ++
              [MEv.dl i (u ++ "=d".toList)
                ("photo_".toList ++ (Nat.repr (i + 1)).toList ++
                  '.' :: (if sub = "jpeg".toList then "jpg".toList else sub)) b] }) := by
  constructor
  · intro http i item s u ty sub orig hb hu hmime hty hsub himg hf
    have himg2 : strContains ((item.mimeType).getD []) "image".toList = true := himg
    have hstep := mainStep_image_file http i item s u orig hb hu himg2 hf
    simp only [hmime, Option.getD_some] at hstep
    rw [code_extension_subtype hty hsub, mk_filename_eq] at hstep
    exact ⟨_, _, _, hstep⟩
  · intro http i item s u ty sub hb hu hmime hty hsub himg hf
    have himg2 : strContains ((item.mimeType).getD []) "image".toList = true := himg
    have hstep := mainStep_image_nofile http i item s u hb hu himg2 hf
    simp only [hmime, Option.getD_some] at hstep
    rw [code_extension_subtype hty hsub] at hstep
    exact ⟨_, _, _, hstep⟩

/-- Witness for c10_filename: the file a1.png of an image/png item keeps
its stem and gets the png subtype extension; an image/jpeg item with no
filename is saved as photo_1.jpg. -/
theorem c10_witness :
    (∃ b n fs2, mainStep c2Http 0 (c2Item 1) initState = .ok
      { ext := some (if "png".toList = "jpeg".toList then "jpg".toList else "png".toList),
        dlu := some ("u1".toList ++ "=d".toList),
        successful := n, fs := fs2,
        evs := initState.evs ++ sleepEvs 0 ++
          [MEv.dl 0 ("u1".toList ++ "=d".toList)
            ((if strContains "a1.png".toList ['.'] = true then stripLastExt "a1.png".toList
                else "a1.png".toList) ++
              '.' :: (if "png".toList = "jpeg".toList then "jpg".toList else "png".toList)) b] })
    ∧ (∃ b n fs2, mainStep c2Http 0 noNameItem initState = .ok
      { ext := some (if "jpeg".toList = "jpeg".toList then "jpg".toList else "jpeg".toList),
        dlu := some ("w".toList ++ "=d".toList),
        successful := n, fs := fs2,
        evs := initState.evs ++ sleepEvs 0 ++
          [MEv.dl 0 ("w".toList ++ "=d".toList)
            ("photo_".toList ++ (Nat.repr 1).toList ++
              '.' :: (if "jpeg".toList = "jpeg".toList then "jpg".toList else "jpeg".toList)) b] }) :=
  ⟨c10_filename.1 c2Http 0 (c2Item 1) initState "u1".toList "image".toList "png".toList
      "a1.png".toList (by decide) (by decide) (by decide) (by decide) (by decide) (by decide)
      (by decide),
   c10_filename.2 c2Http 0 noNameItem initState "w".toList "image".toList "jpeg".toList
      (by decide) (by decide) (by decide) (by decide) (by decide) (by decide) rfl⟩

/-- After k responses that all let the loop continue, the loop state is:
position k, token variable = token of response k-1, accumulator = the
concatenation of the first k items arrays, trace = one request and one
found-print per page. -/
theorem fetchPages_reach (mk : Option Str → PageReq) (pages : Nat → Page α) :
    ∀ k, (∀ i < k, goodCont (pages i)) → ∀ fuel,
      fetchPages mk pages (fuel + k) 0 none [] [] =
        fetchPages mk pages fuel k (tokVar pages k) (concatUpTo pages k)
          (contEvs mk pages k) := by
  intro k
  induction k with
  | zero =>
    intro _ fuel
    simp [tokVar, concatUpTo, contEvs]
  | succ k ih =>
    intro h fuel
    obtain ⟨hst, hit, htk⟩ := h k (Nat.lt_succ_self k)
    obtain ⟨its, hits⟩ := Option.isSome_iff_exists.mp hit
    obtain ⟨t, ht⟩ := Option.isSome_iff_exists.mp htk
    have h1 : ∀ i < k, goodCont (pages i) := fun i hi => h i (Nat.lt_succ_of_lt hi)
    have he1 : fetchPages mk pages (fuel + (k + 1)) 0 none [] [] =
        fetchPages mk pages ((fuel + 1) + k) 0 none [] [] := by
      rw [show fuel + (k + 1) = (fuel + 1) + k from by omega]
    rw [he1, ih h1 (fuel + 1)]
    have hstep : fetchPages mk pages (fuel + 1) k (tokVar pages k) (concatUpTo pages k)
        (contEvs mk pages k) =
        fetchPages mk pages fuel (k + 1) (some t) (concatUpTo pages k ++ its)
          (contEvs mk pages k ++
            [PEv.req (mk (tokParam (tokVar pages k))), PEv.found its.length]) := by
      simp [fetchPages, hst, hits, ht]
    rw [hstep]
    rw [show tokVar pages (k + 1) = some t from ht,
      show concatUpTo pages (k + 1) = concatUpTo pages k ++ its from by
        simp [concatUpTo, List.range_succ, hits],
      show contEvs mk pages (k + 1) = contEvs mk pages k ++
          [PEv.req (mk (tokParam (tokVar pages k))), PEv.found its.length] from by
        simp [contEvs, List.range_succ, hits]]

/-- The loop stops on the first non-200 response, printing the error and
returning the items of the earlier pages. -/
theorem fetchPages_abort (mk : Option Str → PageReq) (pages : Nat → Page α)
    (k fuel : Nat) (hg : ∀ i < k, goodCont (pages i)) (hs : (pages k).status ≠ 200)
    (hf : k + 1 ≤ fuel) :
    fetchPages mk pages fuel 0 none [] [] = some (concatUpTo pages k,
      contEvs mk pages k ++
        [PEv.req (mk (tokParam (tokVar pages k))), PEv.errPrint (pages k).status]) := by
  obtain ⟨f2, rfl⟩ : ∃ f2, fuel = (f2 + 1) + k := ⟨fuel - (k + 1), by omega⟩
  rw [fetchPages_reach mk pages k hg (f2 + 1)]
  simp [fetchPages, hs]

/-- The loop stops on the first 200 response that lacks the items array
or the token, returning everything accumulated so far (the exit page
included). -/
theorem fetchPages_exit (mk : Option Str → PageReq) (pages : Nat → Page α)
    (k fuel : Nat) (hg : ∀ i < k, goodCont (pages i)) (hs : (pages k).status = 200)
    (hbad : (pages k).items = none ∨ (pages k).token = none) (hf : k + 1 ≤ fuel) :
    fetchPages mk pages fuel 0 none [] [] = some (concatUpTo pages (k + 1),
      contEvs mk pages k ++ PEv.req (mk (tokParam (tokVar pages k))) ::
        foundEvs (pages k).items) := by
  obtain ⟨f2, rfl⟩ : ∃ f2, fuel = (f2 + 1) + k := ⟨fuel - (k + 1), by omega⟩
  rw [fetchPages_reach mk pages k hg (f2 + 1)]
  rcases hbad with hit | htk
  · simp [fetchPages, hs, hit, concatUpTo, List.range_succ, foundEvs]
  · cases hits : (pages k).items with
    | none => simp [fetchPages, hs, hits, concatUpTo, List.range_succ, foundEvs]
    | some its => simp [fetchPages, hs, hits, htk, concatUpTo, List.range_succ, foundEvs]

/-- Over a sequence of all-continuing responses, the loop is still
running after any amount of fuel. -/
theorem fetchPages_none_of_good (mk : Option Str → PageReq) (pages : Nat → Page α)
    (h : ∀ n, goodCont (pages n)) :
    ∀ fuel n tok acc evs, fetchPages mk pages fuel n tok acc evs = none := by
  intro fuel
  induction fuel with
  | zero => intro n tok acc evs; rfl
  | succ f ih =>
    intro n tok acc evs
    obtain ⟨hst, hit, htk⟩ := h n
    obtain ⟨its, hits⟩ := Option.isSome_iff_exists.mp hit
    obtain ⟨t, ht⟩ := Option.isSome_iff_exists.mp htk
    simp [fetchPages, hst, hits, ht, ih]

/-- A response that is not bad lets the loop continue. -/
theorem goodCont_of_not_bad {α : Type} (p : Page α) (h : ¬ badPage p) : goodCont p := by
  rw [badPage] at h
  push_neg at h
  exact ⟨h.1, Option.isSome_iff_ne_none.mpr h.2.1, Option.isSome_iff_ne_none.mpr h.2.2⟩

/-- If some response in the sequence is bad, the loop terminates within
fuel bounded by the first bad index. -/
theorem fetchPages_term_of_bad {α : Type} [DecidableEq α] (mk : Option Str → PageReq)
    (pages : Nat → Page α) (h : ∃ k, badPage (pages k)) :
    ∃ fuel r, fetchPages mk pages fuel 0 none [] [] = some r := by
  have hk : badPage (pages (Nat.find h)) := Nat.find_spec h
  have hgood : ∀ i < Nat.find h, goodCont (pages i) :=
    fun i hi => goodCont_of_not_bad _ (Nat.find_min h hi)
  have hr := fetchPages_reach mk pages (Nat.find h) hgood 1
  rw [show 1 + Nat.find h = Nat.find h + 1 from by omega] at hr
  have hsome : (fetchPages mk pages (Nat.find h + 1) 0 none [] []).isSome = true := by
    rw [hr]
    by_cases hst : (pages (Nat.find h)).status = 200
    · cases hits : (pages (Nat.find h)).items with
      | none => simp [fetchPages, hst, hits]
      | some its =>
        cases htk : (pages (Nat.find h)).token with
        | none => simp [fetchPages, hst, hits, htk]
        | some t =>
          exfalso
          rcases hk with h1 | h1 | h1
          · exact h1 hst
          · rw [hits] at h1; cases h1
          · rw [htk] at h1; cases h1
    · simp [fetchPages, hst]
  obtain ⟨r, hrr⟩ := Option.isSome_iff_exists.mp hsome
  exact ⟨Nat.find h + 1, r, hrr⟩

/-- Claim C3: in both list_albums and get_media_items_in_album, a
non-200 response after k continuing pages makes the loop print the error
status, stop (the trace shows exactly k+1 requests: one per earlier page
plus the failing one, and nothing after the error print), and return the
items accumulated from the earlier successful pages, without raising and
without discarding them. -/
theorem c3_status_abort :
    (∀ (pages : Nat → Page Album) k fuel, (∀ i < k, goodCont (pages i)) →
        (pages k).status ≠ 200 → k + 1 ≤ fuel →
        list_albums pages fuel = some (concatUpTo pages k,
          contEvs albumsReq pages k ++
            [PEv.req (albumsReq (tokParam (tokVar pages k))),
              PEv.errPrint (pages k).status]))
    ∧ (∀ (pages : Nat → Page MediaItem) aid k fuel, (∀ i < k, goodCont (pages i)) →
        (pages k).status ≠ 200 → k + 1 ≤ fuel →
        get_media_items_in_album pages aid fuel = some (concatUpTo pages k,
          contEvs (searchReq aid) pages k ++
            [PEv.req (searchReq aid (tokParam (tokVar pages k))),
              PEv.errPrint (pages k).status])) := by
  constructor
  · intro pages k fuel hg hs hf
    exact fetchPages_abort albumsReq pages k fuel hg hs hf
  · intro pages aid k fuel hg hs hf
    exact fetchPages_abort (searchReq aid) pages k fuel hg hs hf

/-- Witness for c3_status_abort: one good page then a 500 on both
endpoints. -/
theorem c3_witness :
    list_albums c3Pages 5 = some (concatUpTo c3Pages 1,
      contEvs albumsReq c3Pages 1 ++
        [PEv.req (albumsReq (tokParam (tokVar c3Pages 1))), PEv.errPrint (c3Pages 1).status])
    ∧ get_media_items_in_album c3Media "id".toList 5 = some (concatUpTo c3Media 1,
      contEvs (searchReq "id".toList) c3Media 1 ++
        [PEv.req (searchReq "id".toList (tokParam (tokVar c3Media 1))),
          PEv.errPrint (c3Media 1).status]) :=
  ⟨c3_status_abort.1 c3Pages 1 5 (by decide) (by decide) (by decide),
   c3_status_abort.2 c3Media "id".toList 1 5 (by decide) (by decide) (by decide)⟩

/-- Claim C7: both pagination loops terminate exactly when the response
sequence contains a bad response (non-200 status, missing results array,
or missing nextPageToken); over a sequence with no bad response they
never terminate (none for every fuel bound). -/
theorem c7_termination :
    (∀ pages : Nat → Page Album,
        ((∃ k, badPage (pages k)) → ∃ fuel r, list_albums pages fuel = some r)
        ∧ ((∀ k, ¬ badPage (pages k)) → ∀ fuel, list_albums pages fuel = none))
    ∧ (∀ (pages : Nat → Page MediaItem) aid,
        ((∃ k, badPage (pages k)) →
          ∃ fuel r, get_media_items_in_album pages aid fuel = some r)
        ∧ ((∀ k, ¬ badPage (pages k)) →
          ∀ fuel, get_media_items_in_album pages aid fuel = none)) := by
  constructor
  · intro pages
    constructor
    · intro h
      exact fetchPages_term_of_bad albumsReq pages h
    · intro h fuel
      exact fetchPages_none_of_good albumsReq pages
        (fun n => goodCont_of_not_bad _ (h n)) fuel 0 none [] []
  · intro pages aid
    constructor
    · intro h
      exact fetchPages_term_of_bad (searchReq aid) pages h
    · intro h fuel
      exact fetchPages_none_of_good (searchReq aid) pages
        (fun n => goodCont_of_not_bad _ (h n)) fuel 0 none [] []

/-- Witness for c7_termination: an immediately bad sequence terminates,
an all-continuing sequence never does, on both endpoints. -/
theorem c7_witness :
    (∃ fuel r, list_albums c7BadPages fuel = some r)
    ∧ (∀ fuel, list_albums c7GoodPages fuel = none)
    ∧ (∃ fuel r, get_media_items_in_album c7BadMedia "id".toList fuel = some r)
    ∧ (∀ fuel, get_media_items_in_album c7GoodMedia "id".toList fuel = none) :=
  ⟨(c7_termination.1 c7BadPages).1 ⟨0, by decide⟩,
   (c7_termination.1 c7GoodPages).2 (fun k => by simp [c7GoodPages, badPage]),
   (c7_termination.2 c7BadMedia "id".toList).1 ⟨0, by decide⟩,
   (c7_termination.2 c7GoodMedia "id".toList).2 (fun k => by simp [c7GoodMedia, badPage])⟩

/-- Claim C6, counterexample: the first page returns status 200, an
items array, and nextPageToken present but equal to the empty string.
The loop does not exit — it fetches a second page — but both the first
and the second issued requests carry no pageToken parameter, so the next
page is not requested by passing the returned (empty) token as the
claim states. -/
theorem c6_counterexample :
    (c6Pages 0).token = some [] ∧
    (match list_albums c6Pages 3 with
      | some (_, evs) => reqToks evs
      | none => [some ['x']]) = [none, none] :=
  ⟨rfl, by decide⟩

/-- Claim C6, amended: both loops exit at the first response lacking the
results array or lacking nextPageToken; every issued request carries as
pageToken the truthiness-filtered previous token (the returned token
when it is non-empty, and no pageToken at all when the token was absent
or the empty string); and over 200-status responses the returned list is
the concatenation, in page order, of the items arrays of all fetched
pages including the exit page. -/
theorem c6_amended :
    (∀ (pages : Nat → Page Album) k fuel, (∀ i < k, goodCont (pages i)) →
        (pages k).status = 200 → ((pages k).items = none ∨ (pages k).token = none) →
        k + 1 ≤ fuel →
        list_albums pages fuel = some (concatUpTo pages (k + 1),
          contEvs albumsReq pages k ++ PEv.req (albumsReq (tokParam (tokVar pages k))) ::
            foundEvs (pages k).items))
    ∧ (∀ (pages : Nat → Page MediaItem) aid k fuel, (∀ i < k, goodCont (pages i)) →
        (pages k).status = 200 → ((pages k).items = none ∨ (pages k).token = none) →
        k + 1 ≤ fuel →
        get_media_items_in_album pages aid fuel = some (concatUpTo pages (k + 1),
          contEvs (searchReq aid) pages k ++
            PEv.req (searchReq aid (tokParam (tokVar pages k))) ::
            foundEvs (pages k).items)) := by
  constructor
  · intro pages k fuel hg hs hbad hf
    unfold list_albums
    exact fetchPages_exit albumsReq pages k fuel hg hs hbad hf
  · intro pages aid k fuel hg hs hbad hf
    unfold get_media_items_in_album
    exact fetchPages_exit (searchReq aid) pages k fuel hg hs hbad hf

/-- Witness for c6_amended: the empty-token sequence exits at page 1 on
both endpoints; the result holds both pages' items and the two requests
carry no pageToken. -/
theorem c6_amended_witness :
    list_albums c6Pages 4 = some (concatUpTo c6Pages 2,
      contEvs albumsReq c6Pages 1 ++ PEv.req (albumsReq (tokParam (tokVar c6Pages 1))) ::
        foundEvs (c6Pages 1).items)
    ∧ get_media_items_in_album c6Media "id".toList 4 = some (concatUpTo c6Media 2,
      contEvs (searchReq "id".toList) c6Media 1 ++
        PEv.req (searchReq "id".toList (tokParam (tokVar c6Media 1))) ::
        foundEvs (c6Media 1).items) :=
  ⟨c6_amended.1 c6Pages 1 4 (by decide) (by decide) (by decide) (by decide),
   c6_amended.2 c6Media "id".toList 1 4 (by decide) (by decide) (by decide) (by decide)⟩

end PhotoApi
